import Mathlib

set_option maxRecDepth 8000

/-!
Verification of the LitGap citation-analysis core against its source.

The definitions below are a shallow embedding of the JavaScript modules
`modules/api.js` (Semantic Scholar client: fetch, retry, dedup/aggregate),
`releases/v1.2.3/modules/parser.js` (Parser: sampling strategy and seeded
Fisher-Yates sampler; Analyzer: gap filtering, scoring, early-influential
marking; LitGapMain: run orchestration).

Modelling conventions, applied throughout:
* JavaScript numbers are embedded as `Nat`/`Int` where the source only ever
  holds integers, and as `ℚ` where the source divides (scores).  All score
  values reached by the source (`citationCount / 100` with integer
  `citationCount`, plus small integers) are exact in IEEE doubles or differ
  from the exact rational only below any threshold the code compares
  against, so the rational embedding is faithful on the reachable domain.
* A JavaScript string field that may be `undefined`/empty is embedded as
  `String` with `""` playing the role of the falsy values (the source only
  ever tests such fields with truthiness checks, and `""`/`undefined`
  behave identically under those checks).
* A `year` field that may be absent or non-numeric (`parseInt` → `NaN`) is
  embedded as `Option Int`, `none` covering both.  The extra JS truthiness
  subtlety that `year === 0` is falsy is modelled explicitly where the
  source tests `if (citation.year)`.
* Network I/O is an oracle passed as an argument: each source paper comes
  with a function `Nat → HttpOutcome` giving the HTTP-level outcome of the
  lookup on each retry attempt.  The serialized loop of `fetchCitations`
  is then a pure fold.
* `Array.prototype.sort` (ES2019+) is a stable sort; both comparators used
  by the source (`b.totalScore - a.totalScore` and
  `parseInt(a.year) - parseInt(b.year)`) induce total preorders, and a
  stable sort under a total preorder is unique, so it is embedded as
  `List.insertionSort` with the corresponding non-strict relation, which
  is stable.
-/

namespace LitGap

/-! ## Parser._randomSample (parser.js lines 150-164) -/

/-- State update of the seeded generator in `Parser._randomSample`:
`randomSeed = (randomSeed * 9301 + 49297) % 233280`.  The draw then yields
`randomSeed / 233280` (the post-update state divided by the modulus). -/
def nextState (s : Nat) : Nat := (s * 9301 + 49297) % 233280

/-- Swap of two list positions, modelling the JS destructuring swap
`[result[i], result[j]] = [result[j], result[i]]` (identity when an index
is out of bounds; the source only reaches in-bounds indices because
`parseZoteroLibrary` calls the sampler with `sampleSize < items.length`). -/
def listSwap {α : Type _} (l : List α) (i j : Nat) : List α :=
  match l[i]?, l[j]? with
  | some a, some b => (l.set i b).set j a
  | _, _ => l

/-- The partial Fisher-Yates loop of `Parser._randomSample`:
`for (let i = 0; i < sampleSize; i++)` with
`j = i + Math.floor(seededRandom() * (result.length - i))`.
For `i < length` the floor equals the natural-number division
`s * (length - i) / 233280` exactly (the draw is `s / 233280` with
`s < 233280`).  Returns the shuffled list and the final generator state. -/
def sampleLoop {α : Type _} (l : List α) (s i : Nat) : Nat → List α × Nat
  | 0 => (l, s)
  | fuel + 1 =>
    let s2 := nextState s
    let j := i + s2 * (l.length - i) / 233280
    sampleLoop (listSwap l i j) s2 (i + 1) fuel

/-- `Parser._randomSample(array, sampleSize, seed)`: copy the array, run the
seeded partial Fisher-Yates shuffle, and return `result.slice(0, sampleSize)`.
The embedding is pure: the source copies the input (`[...array]`) before
shuffling, so the caller's array is left unmodified. -/
def randomSample {α : Type _} (l : List α) (sampleSize seed : Nat) : List α :=
  ((sampleLoop l seed 0 sampleSize).1).take sampleSize

/-! ## Parser.determineSamplingStrategy (parser.js lines 241-273) -/

/-- The `warningLevel` field values `'none' | 'info' | 'warning'`. -/
inductive WarningLevel where
  | none
  | info
  | warning
deriving DecidableEq

/-- The strategy object returned by `Parser.determineSamplingStrategy`. -/
structure SamplingStrategy where
  sampleSize : Option Nat
  shouldSample : Bool
  warningLevel : WarningLevel
  message : String
  estimatedTime : Nat
  reason : Option String
  suggestion : Option String
deriving DecidableEq

/-- `Parser.determineSamplingStrategy(totalWithDOI)`.  The estimated time in
the first branch is `Math.ceil(totalWithDOI * 1.5 / 60) || 1`: the natural
ceiling of `3n/120` (written `(3n + 119) / 120` in natural division),
replaced by `1` when it is `0`. -/
def determineSamplingStrategy (totalWithDOI : Nat) : SamplingStrategy :=
  if totalWithDOI ≤ 30 then
    { sampleSize := none
      shouldSample := false
      warningLevel := .none
      message := "Will process all papers"
      estimatedTime :=
        if (3 * totalWithDOI + 119) / 120 = 0 then 1 else (3 * totalWithDOI + 119) / 120
      reason := none
      suggestion := none }
  else if totalWithDOI ≤ 100 then
    { sampleSize := some 50
      shouldSample := true
      warningLevel := .info
      message := "Large collection - will sample 50 papers (recommended)"
      estimatedTime := 2
      reason := some "Faster processing with same quality results"
      suggestion := none }
  else
    { sampleSize := some 50
      shouldSample := true
      warningLevel := .warning
      message := "Collection too large - will sample 50 papers (required)"
      estimatedTime := 2
      reason := some "Gap analysis works best with focused collections (30-100 papers)"
      suggestion := some "Consider splitting into topic-specific sub-collections" }

/-! ## Analyzer data model (parser.js lines 762-936, api.js lines 84-113) -/

/-- One raw citation record as pushed by `API.fetchCitations`:
`{paperId: cite.paperId, title: cite.title || '', year: cite.year,
citationCount: cite.citationCount || 0, citedBy: paper.title.substring(0,50)}`.
`paperId = ""` models a missing/empty identifier (the only way the source
ever inspects it is the truthiness test `if (paperId)`). -/
structure CitationRecord where
  paperId : String
  title : String
  year : Option Int
  citationCount : Nat
  citedBy : String
deriving DecidableEq

/-- One aggregated candidate: the first-seen `CitationRecord` for an
identifier together with its `mentioned_count`. -/
structure Candidate where
  paperId : String
  title : String
  year : Option Int
  citationCount : Nat
  citedBy : String
  mentioned_count : Nat
deriving DecidableEq

/-- Score breakdown returned by `Analyzer._calculateScore`. -/
structure ScoreBreakdown where
  totalScore : ℚ
  mentionedScore : ℚ
  impactScore : ℚ
  recencyScore : ℚ
deriving DecidableEq

/-- A scored recommendation: the candidate spread together with the four
score fields (`{...citation, totalScore, mentionedScore, impactScore,
recencyScore}`) and the `isEarlyInfluential` flag, which is absent (falsy)
until `_markEarlyInfluential` sets it. -/
structure Recommendation where
  paperId : String
  title : String
  year : Option Int
  citationCount : Nat
  citedBy : String
  mentioned_count : Nat
  totalScore : ℚ
  mentionedScore : ℚ
  impactScore : ℚ
  recencyScore : ℚ
  isEarlyInfluential : Bool
deriving DecidableEq

/-- Options of `Analyzer.findGaps` (defaults in the source:
`minYear = 2010`, `topN = 10`, `minMentions = 2`). -/
structure GapOptions where
  minYear : Int
  topN : Nat
  minMentions : Nat
deriving DecidableEq

/-- `parseFloat(x.toFixed(2))` for a non-negative number: round to the
nearest multiple of `1/100`, ties upward. -/
def round2 (q : ℚ) : ℚ := (⌊q * 100 + 1 / 2⌋ : ℚ) / 100

/-- `Analyzer._calculateScore(citation, currentYear)` (parser.js lines
861-902).  `mentionedScore = (citation.mentioned_count || 0) * 10`;
`impactScore = Math.min(citationCount / 100, 5)` (stored rounded to two
decimals, but added to `totalScore` unrounded); `recencyScore` from the age
thresholds 3/5/10, computed only when `citation.year` is truthy (present,
numeric and nonzero).  `currentYear` defaults to `new Date().getFullYear()`
in the source and is an explicit parameter here. -/
def calculateScore (citation : Candidate) (currentYear : Int) : ScoreBreakdown :=
  let mentionedScore : ℚ := (citation.mentioned_count : ℚ) * 10
  let impactScore : ℚ := min ((citation.citationCount : ℚ) / 100) 5
  let recencyScore : ℚ :=
    match citation.year with
    | none => 0
    | some y =>
      if y = 0 then 0
      else
        let age := currentYear - y
        if age ≤ 3 then 3
        else if age ≤ 5 then 2
        else if age ≤ 10 then 1
        else 0
  { totalScore := mentionedScore + impactScore + recencyScore
    mentionedScore := mentionedScore
    impactScore := round2 impactScore
    recencyScore := recencyScore }

/-- Spread of a candidate with its scores, as built in `findGaps`
(`{...citation, totalScore: ..., mentionedScore: ..., impactScore: ...,
recencyScore: ...}`); no `isEarlyInfluential` property exists yet, i.e. the
flag is falsy. -/
def decorate (citation : Candidate) (currentYear : Int) : Recommendation :=
  let scores := calculateScore citation currentYear
  { paperId := citation.paperId
    title := citation.title
    year := citation.year
    citationCount := citation.citationCount
    citedBy := citation.citedBy
    mentioned_count := citation.mentioned_count
    totalScore := scores.totalScore
    mentionedScore := scores.mentionedScore
    impactScore := scores.impactScore
    recencyScore := scores.recencyScore
    isEarlyInfluential := false }

/-- Filter 2 of `findGaps`: `if (!c.year) return false; const year =
parseInt(c.year); return !isNaN(year) && year >= minYear;`.  `none` models
missing/non-numeric; the truthiness test additionally rejects year `0`. -/
def yearOk (minYear : Int) (c : Candidate) : Bool :=
  match c.year with
  | none => false
  | some y => !(y = 0) && minYear ≤ y

/-- The three-stage filter pipeline of `findGaps` (parser.js lines 791-808):
remove own papers, then year, then minimum mentions. -/
def gapFiltered (allCitations : List Candidate) (userPaperIds : List String)
    (opts : GapOptions) : List Candidate :=
  ((allCitations.filter (fun c => !(userPaperIds.contains c.paperId))).filter
    (yearOk opts.minYear)).filter
    (fun c => opts.minMentions ≤ c.mentioned_count)

/-- Scoring and the stable descending sort by `totalScore`
(`recommendations.sort((a, b) => b.totalScore - a.totalScore)`). -/
def gapRanked (allCitations : List Candidate) (userPaperIds : List String)
    (opts : GapOptions) (currentYear : Int) : List Recommendation :=
  ((gapFiltered allCitations userPaperIds opts).map
    (fun c => decorate c currentYear)).insertionSort
    (fun a b => b.totalScore ≤ a.totalScore)

/-- Selection predicate of `_markEarlyInfluential`: numeric year `< 2016`
and `citationCount >= 200`. -/
def earlyQualifies (r : Recommendation) : Bool :=
  match r.year with
  | none => false
  | some y => decide (y < 2016) && decide (200 ≤ r.citationCount)

/-- `parseInt(paper.year)` inside the year-ascending comparator; every paper
it is applied to has already passed `earlyQualifies`, hence has a numeric
year, so the default is never relevant. -/
def yearKey (r : Recommendation) : Int := r.year.getD 0

/-- The `topPapers` window of `_markEarlyInfluential`:
`recommendations.slice(0, Math.min(topN * 2, recommendations.length))`,
with every element tagged by its position (`List.enum`) so that the
source's mutation-by-object-reference can be modelled positionally. -/
def earlyWindow (recommendations : List Recommendation) (topN : Nat) :
    List (Nat × Recommendation) :=
  (recommendations.enum).take (min (topN * 2) recommendations.length)

/-- The `earlyPapers` sub-selection: window entries with numeric year
`< 2016` and `citationCount >= 200`. -/
def earlyPapers (recommendations : List Recommendation) (topN : Nat) :
    List (Nat × Recommendation) :=
  (earlyWindow recommendations topN).filter (fun p => earlyQualifies p.2)

/-- The stable year-ascending sort
`earlyPapers.sort((a, b) => parseInt(a.year) - parseInt(b.year))`. -/
def earlySorted (recommendations : List Recommendation) (topN : Nat) :
    List (Nat × Recommendation) :=
  (earlyPapers recommendations topN).insertionSort
    (fun a b => yearKey a.2 ≤ yearKey b.2)

/-- The positions whose entries get marked: the first
`numToMark = Math.min(2, earlyPapers.length)` entries of the year-sorted
sub-selection. -/
def earlyMarkIdx (recommendations : List Recommendation) (topN : Nat) : List Nat :=
  ((earlySorted recommendations topN).take
    (min 2 (earlyPapers recommendations topN).length)).map Prod.fst

/-- `Analyzer._markEarlyInfluential(recommendations, topN)` (parser.js lines
912-936).  The source mutates (by object reference) the selected elements
of the already-sorted list; the embedding flips `isEarlyInfluential` at
exactly the selected positions. -/
def markEarlyInfluential (recommendations : List Recommendation) (topN : Nat) :
    List Recommendation :=
  if recommendations.length = 0 then recommendations
  else if (earlyPapers recommendations topN).length = 0 then recommendations
  else
    recommendations.enum.map (fun p =>
      if (earlyMarkIdx recommendations topN).contains p.1
      then { p.2 with isEarlyInfluential := true } else p.2)

/-- `Analyzer.findGaps(citationData, options)` (parser.js lines 774-851):
filter, return `[]` when nothing survives, score, sort descending by
`totalScore`, mark early-influential papers, and only then
`slice(0, topN)`. -/
def findGaps (allCitations : List Candidate) (userPaperIds : List String)
    (opts : GapOptions) (currentYear : Int) : List Recommendation :=
  if (gapFiltered allCitations userPaperIds opts).length = 0 then []
  else
    (markEarlyInfluential (gapRanked allCitations userPaperIds opts currentYear)
      opts.topN).take opts.topN

/-! ## API module (api.js) -/

/-- One entry of the `citations` array in a Semantic Scholar response body.
`paperId = ""` models a missing identifier, `title`/`citationCount` are read
with `|| ''` / `|| 0` defaults in the source, so their falsy values are
already collapsed here. -/
structure CiteEntry where
  paperId : String
  title : String
  year : Option Int
  citationCount : Nat
deriving DecidableEq

/-- A parsed 200-response body: the source paper's own `paperId` (possibly
empty) and its `citations` array. -/
structure PaperData where
  paperId : String
  citations : List CiteEntry
deriving DecidableEq

/-- What `Zotero.HTTP.request` produces for one attempt, as classified by
`API._fetchPaperByDOI` (api.js lines 181-234): a 200 with a parsed body, a
200 whose body fails to parse, a non-200 status, or a thrown transport
error whose message may or may not contain `'429'`. -/
inductive HttpOutcome where
  | success (d : PaperData)
  | badJson
  | status (code : Nat)
  | netError (mentions429 : Bool)

/-- Return value of `API._fetchPaperByDOI`: paper data, `null`, or the
sentinel string `'RATE_LIMITED'`. -/
inductive LowResult where
  | data (d : PaperData)
  | nullR
  | rateLimited
deriving DecidableEq

/-- `API._fetchPaperByDOI(doi)` (api.js lines 165-235): no DOI → `null`
without a request; 200 → parsed data (or `null` on parse error); 404 →
`null`; 429 → `'RATE_LIMITED'`; other status → `null`; thrown error →
`'RATE_LIMITED'` if the message contains `'429'`, else `null`. -/
def fetchPaperByDOI (doi : String) (resp : HttpOutcome) : LowResult :=
  if doi = "" then .nullR
  else
    match resp with
    | .success d => .data d
    | .badJson => .nullR
    | .status code =>
      if code = 404 then .nullR
      else if code = 429 then .rateLimited
      else .nullR
    | .netError mentions429 => if mentions429 then .rateLimited else .nullR

/-- `API.maxRetries` (api.js line 28). -/
def maxRetries : Nat := 3

/-- `API.delay` in milliseconds (api.js line 27). -/
def delay : Nat := 3000

/-- Recursion of `API._fetchPaperByDOIWithRetry(doi, attempt)` (api.js lines
144-156), with the per-attempt outcome supplied by `oracle`.  The source
recurses while `result === 'RATE_LIMITED' && attempt < this.maxRetries`,
waiting `this.delay * attempt * 2` before each retry, and finally collapses
a surviving `'RATE_LIMITED'` to `null`.  The guard `attempt < maxRetries`
is carried as the structural fuel `maxRetries - attempt`.  Returns the
final result together with the list of backoff waits (in ms) performed. -/
def retryGo (oracle : Nat → LowResult) : Nat → Nat → Option PaperData × List Nat
  | fuel, attempt =>
    match oracle attempt, fuel with
    | .rateLimited, fuel2 + 1 =>
      let rest := retryGo oracle fuel2 (attempt + 1)
      (rest.1, delay * attempt * 2 :: rest.2)
    | .rateLimited, 0 => (none, [])
    | .data d, _ => (some d, [])
    | .nullR, _ => (none, [])

/-- `API._fetchPaperByDOIWithRetry(doi, attempt)` with its default
`attempt = 1`, over a per-attempt outcome oracle. -/
def fetchPaperByDOIWithRetry (oracle : Nat → LowResult) (attempt : Nat) :
    Option PaperData × List Nat :=
  retryGo oracle (maxRetries - attempt) attempt

/-- A paper object handed to `API.fetchCitations` (only `title` and `doi`
are read by the fetch loop). -/
structure Paper where
  title : String
  doi : String

/-- One source paper paired with its network behaviour: the HTTP outcome of
each retry attempt. -/
def Source : Type := Paper × (Nat → HttpOutcome)

/-- The resolved per-source fetch result: `await
this._fetchPaperByDOIWithRetry(paper.doi)` starting at attempt 1. -/
def sourceResult (src : Source) : Option PaperData :=
  (fetchPaperByDOIWithRetry (fun k => fetchPaperByDOI src.1.doi (src.2 k)) 1).1

/-- The raw citation records one source contributes to `allCitations`
(api.js lines 84-92): nothing on failure, otherwise one record per entry of
`result.citations`, stamped with `citedBy = paper.title.substring(0, 50)`. -/
def sourceRecords (src : Source) : List CitationRecord :=
  match sourceResult src with
  | none => []
  | some d =>
    d.citations.map (fun cite =>
      { paperId := cite.paperId
        title := cite.title
        year := cite.year
        citationCount := cite.citationCount
        citedBy := src.1.title.take 50 })

/-- One step of the dedup loop of `API.fetchCitations` (api.js lines
100-113): a record with a falsy `paperId` is skipped; a first-seen
identifier is inserted (insertion order, `mentioned_count = 1`, keeping the
record's own field snapshot); a seen identifier only has its
`mentioned_count` incremented. -/
def addRecord (acc : List Candidate) (r : CitationRecord) : List Candidate :=
  if r.paperId = "" then acc
  else if acc.any (fun c => c.paperId == r.paperId) then
    acc.map (fun c =>
      if c.paperId == r.paperId then { c with mentioned_count := c.mentioned_count + 1 }
      else c)
  else
    acc ++ [{ paperId := r.paperId
              title := r.title
              year := r.year
              citationCount := r.citationCount
              citedBy := r.citedBy
              mentioned_count := 1 }]

/-- The whole dedup pass: `allCitations.forEach(...)` into the
`uniqueCitations` object, then `Object.values` (insertion order for the
non-integer-like string keys the API produces). -/
def aggregate (records : List CitationRecord) : List Candidate :=
  records.foldl addRecord []

/-- A candidate row built from one record's field snapshot and a given
mention count (the shape both inserted and described by the spec). -/
def snapshotCandidate (r : CitationRecord) (count : Nat) : Candidate :=
  { paperId := r.paperId
    title := r.title
    year := r.year
    citationCount := r.citationCount
    citedBy := r.citedBy
    mentioned_count := count }

/-- Specification shape of one aggregated row, following the words of the
spec (§4.4): the row for a non-empty `id` exists iff some record bears
`id`; it snapshots the first-seen record's fields, and its
`mentioned_count` is the number of records bearing `id` (1 on first
sight, incremented per later record). -/
def aggregateSpec (records : List CitationRecord) (id : String) : Option Candidate :=
  match records.find? (fun r => r.paperId == id) with
  | none => none
  | some r =>
    some (snapshotCandidate r (records.countP (fun r2 => r2.paperId == id)))

/-- `userPaperIds` collection of the fetch loop: a `Set` receiving each
successful source's own truthy `paperId`, read back in insertion order by
`Array.from`. -/
def collectUserIds (sources : List Source) : List String :=
  sources.foldl
    (fun ids src =>
      match sourceResult src with
      | none => ids
      | some d =>
        if d.paperId = "" then ids
        else if ids.contains d.paperId then ids
        else ids ++ [d.paperId])
    []

/-- The object returned by `API.fetchCitations` (api.js lines 115-124),
restricted to the fields the rest of the pipeline reads. -/
structure FetchData where
  user_paper_ids : List String
  all_citations : List Candidate
  total_citations : Nat
  unique_citations : Nat

/-- `API.fetchCitations(papers, progressCallback)` (api.js lines 49-134):
the serialized per-paper loop appends each paper's citation records in
order (`allCitations` is the concatenation of the per-source
contributions), collects the user's own paper ids, and deduplicates into
the candidate collection.  Failures of individual sources contribute
nothing and never abort the loop. -/
def fetchCitations (sources : List Source) : FetchData :=
  let allCitations := (sources.map sourceRecords).flatten
  { user_paper_ids := collectUserIds sources
    all_citations := aggregate allCitations
    total_citations := allCitations.length
    unique_citations := (aggregate allCitations).length }

/-! ## LitGapMain.run (parser.js concatenated main module, lines 303-463) -/

/-- The DOI-coverage test of `run`:
`papers.filter(p => p.doi && p.doi.trim())` keeps a paper iff its `doi` is
a non-empty string whose trim is non-empty, i.e. iff the `doi` contains a
non-whitespace character. -/
def hasUsableDOI (p : Paper) : Bool :=
  !(p.doi == "") && p.doi.data.any (fun c => !c.isWhitespace)

/-- The user-visible outcome of one `LitGapMain.run` call:
`errorNoPapers` = the "No papers found in collection" error dialog;
`errorNoDOI` = the "No papers with DOI found" error dialog;
`noGaps` = the "No knowledge gaps found. Your library is well-covered!"
notification (run returns `false`);
`foundGaps` = recommendations exist and the report flow starts. -/
inductive RunOutcome where
  | errorNoPapers
  | errorNoDOI
  | noGaps
  | foundGaps (recommendations : List Recommendation)
deriving DecidableEq

/-- The decision flow of `LitGapMain.run(collection, papers)` up to report
generation (main module lines 303-379).  Note the guard
`if (!citationData || !citationData.all_citations) throw ...` can never
fire: `fetchCitations` always returns an object whose `all_citations` is
an array, and an empty array is truthy in JavaScript, so a run that
collected zero citations falls through to `findGaps` and ends in the same
`noGaps` notification as an empty-but-valid gap list. -/
def run (papers : List Source) (currentYear : Int) : RunOutcome :=
  if papers.length = 0 then .errorNoPapers
  else
    let papersWithDOI := papers.filter (fun p => hasUsableDOI p.1)
    if papersWithDOI.length = 0 then .errorNoDOI
    else
      let citationData := fetchCitations papersWithDOI
      let recommendations :=
        findGaps citationData.all_citations citationData.user_paper_ids
          { minYear := 2010, topN := 10, minMentions := 2 } currentYear
      if recommendations.length = 0 then .noGaps
      else .foundGaps recommendations

/-! ## Concrete inputs used by witnesses and counterexamples -/

/-- The raw records of the specification example
`[{id:"A"}, {id:"A"}, {id:"B"}]`. -/
def exampleRecords : List CitationRecord :=
  [{ paperId := "A", title := "tA", year := some 2020, citationCount := 3, citedBy := "s1" },
   { paperId := "A", title := "tA2", year := some 2021, citationCount := 9, citedBy := "s2" },
   { paperId := "B", title := "tB", year := some 2019, citationCount := 7, citedBy := "s2" }]

/-- A single source whose (successful) response lists the same candidate
identifier twice. -/
def dupSource : Source :=
  (⟨"Paper One", "10.1/x"⟩, fun _ => .success
    { paperId := "OWN"
      citations := [⟨"X", "tX", some 2020, 5⟩, ⟨"X", "tX", some 2020, 5⟩] })

/-- A single source whose response lists two distinct candidates. -/
def cleanSource : Source :=
  (⟨"Paper One", "10.1/x"⟩, fun _ => .success
    { paperId := "OWN"
      citations := [⟨"X", "tX", some 2020, 5⟩, ⟨"Y", "tY", some 2021, 8⟩] })

/-- The `X` row aggregated from `cleanSource`. -/
def cleanCandidate : Candidate :=
  { paperId := "X", title := "tX", year := some 2020, citationCount := 5,
    citedBy := "Paper One", mentioned_count := 1 }

/-- A source that is rate-limited on every attempt. -/
def failingSource : Source := (⟨"Paper One", "10.1/a"⟩, fun _ => .status 429)

/-- A source that succeeds, contributing one citation whose candidate is
mentioned only once (so the default `minMentions = 2` filters it out). -/
def singleCitationSource : Source :=
  (⟨"Paper Two", "10.1/b"⟩, fun _ => .success
    { paperId := "OWN2", citations := [⟨"X", "tX", some 2020, 50⟩] })

/-- A candidate that passes every `findGaps` filter with the default
options at `currentYear = 2026`. -/
def exampleCandidate : Candidate :=
  { paperId := "C", title := "T", year := some 2020, citationCount := 0,
    citedBy := "s", mentioned_count := 3 }

/-- A candidate filtered out by `minMentions = 2`. -/
def weakCandidate : Candidate :=
  { paperId := "D", title := "T", year := some 2020, citationCount := 0,
    citedBy := "s", mentioned_count := 1 }

/-- Three score-sorted recommendations: one early-influential candidate
(year 2010, 500 citations), one recent, and one old candidate with only
199 citations. -/
def exampleRecs : List Recommendation :=
  [{ paperId := "a", title := "t", year := some 2010, citationCount := 500, citedBy := "s",
     mentioned_count := 2, totalScore := 30, mentionedScore := 20, impactScore := 5,
     recencyScore := 0, isEarlyInfluential := false },
   { paperId := "b", title := "t", year := some 2020, citationCount := 50, citedBy := "s",
     mentioned_count := 2, totalScore := 25, mentionedScore := 20, impactScore := 1,
     recencyScore := 1, isEarlyInfluential := false },
   { paperId := "c", title := "t", year := some 2012, citationCount := 199, citedBy := "s",
     mentioned_count := 2, totalScore := 20, mentionedScore := 20, impactScore := 2,
     recencyScore := 0, isEarlyInfluential := false }]

/-! ## Helper lemmas: the partial Fisher-Yates shuffle permutes the list -/

/-- Replacing the element found at position `m` and moving it to the front
is a permutation of putting the new element at the front. -/
theorem perm_cons_set {α : Type _} : ∀ (t : List α) (m : Nat) (a b : α),
    t[m]? = some b → (b :: t.set m a).Perm (a :: t)
  | [], m, a, b, h => by simp at h
  | c :: t2, 0, a, b, h => by
    simp only [List.getElem?_cons_zero, Option.some.injEq] at h
    subst h
    exact List.Perm.swap _ _ _
  | c :: t2, m + 1, a, b, h => by
    simp only [List.getElem?_cons_succ] at h
    have ih := perm_cons_set t2 m a b h
    simp only [List.set_cons_succ]
    exact (List.Perm.swap c b _).trans ((ih.cons c).trans (List.Perm.swap a c t2))

/-- Writing each of two fetched elements over the other position is a
permutation (the core of the destructuring swap). -/
theorem set_set_perm {α : Type _} : ∀ (l : List α) (i j : Nat) (a b : α),
    l[i]? = some a → l[j]? = some b → ((l.set i b).set j a).Perm l
  | [], i, j, a, b, ha, _ => by simp at ha
  | c :: t, 0, 0, a, b, ha, hb => by
    simp only [List.getElem?_cons_zero, Option.some.injEq] at ha hb
    subst ha; subst hb
    simp
  | c :: t, 0, j + 1, a, b, ha, hb => by
    simp only [List.getElem?_cons_zero, Option.some.injEq,
      List.getElem?_cons_succ] at ha hb
    subst ha
    simpa using perm_cons_set t j c b hb
  | c :: t, i + 1, 0, a, b, ha, hb => by
    simp only [List.getElem?_cons_zero, Option.some.injEq,
      List.getElem?_cons_succ] at ha hb
    subst hb
    simpa using perm_cons_set t i c a ha
  | c :: t, i + 1, j + 1, a, b, ha, hb => by
    simp only [List.getElem?_cons_succ] at ha hb
    simpa using (set_set_perm t i j a b ha hb).cons c

/-- `listSwap` always returns a permutation of its input. -/
theorem listSwap_perm {α : Type _} (l : List α) (i j : Nat) :
    (listSwap l i j).Perm l := by
  unfold listSwap
  split
  · exact set_set_perm l i j _ _ (by assumption) (by assumption)
  · exact List.Perm.refl l

/-- The shuffle phase of the sampler permutes the input list. -/
theorem sampleLoop_fst_perm {α : Type _} : ∀ (fuel : Nat) (l : List α) (s i : Nat),
    ((sampleLoop l s i fuel).1).Perm l
  | 0, l, _, _ => List.Perm.refl l
  | fuel + 1, l, s, i => by
    simp only [sampleLoop]
    exact (sampleLoop_fst_perm fuel _ _ _).trans (listSwap_perm l i _)

/-- The generator state after `fuel` draws is the `fuel`-th iterate of the
recurrence. -/
theorem sampleLoop_snd {α : Type _} : ∀ (fuel : Nat) (l : List α) (s i : Nat),
    (sampleLoop l s i fuel).2 = nextState^[fuel] s
  | 0, _, _, _ => rfl
  | fuel + 1, l, s, i => by
    simp only [sampleLoop]
    rw [sampleLoop_snd fuel, Function.iterate_succ_apply]

/-! ## Helper lemma: the estimated-time ceiling -/

/-- The natural-division form of the first-branch estimate agrees with the
exact rational ceiling `⌈n * 1.5 / 60⌉`. -/
theorem estTime_ceil (n : Nat) :
    (((3 * n + 119) / 120 : Nat) : ℤ) = ⌈(n : ℚ) * 1.5 / 60⌉ := by
  have hdiv : (n : ℚ) * 1.5 / 60 = 3 * (n : ℚ) / 120 := by ring
  rw [hdiv]
  have h1 : ((3 * n + 119) / 120 : Nat) * 120 ≤ 3 * n + 119 := by omega
  have h2 : 3 * n ≤ ((3 * n + 119) / 120 : Nat) * 120 := by omega
  have hq1 : (((3 * n + 119) / 120 : Nat) : ℚ) * 120 ≤ 3 * (n : ℚ) + 119 := by
    exact_mod_cast h1
  have hq2 : 3 * (n : ℚ) ≤ (((3 * n + 119) / 120 : Nat) : ℚ) * 120 := by
    exact_mod_cast h2
  rw [eq_comm, Int.ceil_eq_iff]
  constructor
  · rw [lt_div_iff₀ (by norm_num : (0 : ℚ) < 120), Int.cast_natCast]
    linarith
  · rw [div_le_iff₀ (by norm_num : (0 : ℚ) < 120), Int.cast_natCast]
    linarith

/-! ## Claims C8, C9, C10 -/

/-- C8: `SamplingStrategist.decide` is a pure total function of the eligible
source count: for `eligibleCount ≤ 30` no sampling, with estimated time
`⌈eligibleCount * 1.5 / 60⌉` and minimum 1 minute; for `31 ≤ eligibleCount
≤ 100` an advisory (warningLevel `info`, not mandatory) sample-to-50 with
estimated time 2; for `eligibleCount > 100` a mandatory (warningLevel
`warning`) sample-to-50 with estimated time 2 and a suggestion string to
split the library. -/
theorem determineSamplingStrategy_spec (n : Nat) :
    (n ≤ 30 →
      (determineSamplingStrategy n).shouldSample = false
      ∧ (determineSamplingStrategy n).sampleSize = none
      ∧ ((determineSamplingStrategy n).estimatedTime : ℤ) = max 1 ⌈(n : ℚ) * 1.5 / 60⌉
      ∧ 1 ≤ (determineSamplingStrategy n).estimatedTime)
    ∧ (31 ≤ n → n ≤ 100 →
      (determineSamplingStrategy n).shouldSample = true
      ∧ (determineSamplingStrategy n).sampleSize = some 50
      ∧ (determineSamplingStrategy n).warningLevel = .info
      ∧ (determineSamplingStrategy n).suggestion = none
      ∧ (determineSamplingStrategy n).estimatedTime = 2)
    ∧ (101 ≤ n →
      (determineSamplingStrategy n).shouldSample = true
      ∧ (determineSamplingStrategy n).sampleSize = some 50
      ∧ (determineSamplingStrategy n).warningLevel = .warning
      ∧ (determineSamplingStrategy n).suggestion =
          some "Consider splitting into topic-specific sub-collections"
      ∧ (determineSamplingStrategy n).estimatedTime = 2) := by
  refine ⟨fun h => ?_, fun h1 h2 => ?_, fun h => ?_⟩
  · unfold determineSamplingStrategy
    rw [if_pos h]
    refine ⟨rfl, rfl, ?_, ?_⟩
    · rw [← estTime_ceil n]
      show ((if (3 * n + 119) / 120 = 0 then 1 else (3 * n + 119) / 120 : Nat) : ℤ) = _
      by_cases hz : (3 * n + 119) / 120 = 0
      · rw [if_pos hz, hz]
        decide
      · rw [if_neg hz]
        have hge : (1 : ℤ) ≤ ((3 * n + 119) / 120 : Nat) := by
          exact_mod_cast Nat.one_le_iff_ne_zero.mpr hz
        exact (max_eq_right hge).symm
    · show 1 ≤ (if (3 * n + 119) / 120 = 0 then 1 else (3 * n + 119) / 120)
      split <;> omega
  · have h30 : ¬ n ≤ 30 := by omega
    unfold determineSamplingStrategy
    rw [if_neg h30, if_pos h2]
    exact ⟨rfl, rfl, rfl, rfl, rfl⟩
  · have h30 : ¬ n ≤ 30 := by omega
    have h100 : ¬ n ≤ 100 := by omega
    unfold determineSamplingStrategy
    rw [if_neg h30, if_neg h100]
    exact ⟨rfl, rfl, rfl, rfl, rfl⟩

/-- Witness for C8: the boundary inputs 30, 31, 100 and 101 each hit the
documented branch. -/
theorem determineSamplingStrategy_spec_witness :
    (determineSamplingStrategy 30).shouldSample = false
    ∧ (determineSamplingStrategy 30).estimatedTime = 1
    ∧ (determineSamplingStrategy 31).sampleSize = some 50
    ∧ (determineSamplingStrategy 31).warningLevel = .info
    ∧ (determineSamplingStrategy 100).warningLevel = .info
    ∧ (determineSamplingStrategy 101).warningLevel = .warning
    ∧ (determineSamplingStrategy 101).suggestion ≠ none :=
  ⟨((determineSamplingStrategy_spec 30).1 (by norm_num)).1,
   by decide,
   (((determineSamplingStrategy_spec 31).2.1 (by norm_num) (by norm_num))).2.1,
   (((determineSamplingStrategy_spec 31).2.1 (by norm_num) (by norm_num))).2.2.1,
   (((determineSamplingStrategy_spec 100).2.1 (by norm_num) (by norm_num))).2.2.1,
   ((determineSamplingStrategy_spec 101).2.2 (by norm_num)).2.2.1,
   by rw [((determineSamplingStrategy_spec 101).2.2 (by norm_num)).2.2.2.1]; decide⟩

/-- C9: seeded subsampling is deterministic -- the sampler is a pure
function of (array, sample size, seed), so two runs on the same inputs are
identical -- and the pseudo-random generator threaded through the loop
updates its state exactly as `state = (state * 9301 + 49297) % 233280`
(the state after `k` draws is the `k`-th iterate of that recurrence) and
yields `state / 233280` on each draw (the post-update state over the
modulus, which the loop consumes as the floor of `value * (length - i)`). -/
theorem randomSample_deterministic {α : Type _} (l : List α) (k s : Nat) :
    randomSample l k s = randomSample l k s
    ∧ (sampleLoop l s 0 k).2 = nextState^[k] s
    ∧ ∀ t, nextState t = (t * 9301 + 49297) % 233280 :=
  ⟨rfl, sampleLoop_snd k l s 0, fun _ => rfl⟩

/-- C10: for every array `l`, sample size `k ≤ l.length` and seed, the
sampler returns exactly `k` elements drawn from `k` pairwise-distinct
positions of `l` (no position selected twice): its output is a
permutation of a sublist of `l` (`List.Subperm`).  The input list is left
unmodified -- the source copies the array (`[...array]`) before shuffling,
which the pure embedding reflects by construction. -/
theorem randomSample_length_subperm {α : Type _} (l : List α) (k s : Nat)
    (h : k ≤ l.length) :
    (randomSample l k s).length = k ∧ (randomSample l k s).Subperm l := by
  have hperm := sampleLoop_fst_perm k l s 0
  constructor
  · rw [randomSample, List.length_take, hperm.length_eq]
    exact Nat.min_eq_left h
  · exact ((List.take_sublist k _).subperm).trans hperm.subperm

/-- Witness for C10 at the concrete input `[1, 2, 3]`, `k = 2`, seed 42. -/
theorem randomSample_length_subperm_witness :
    (randomSample [1, 2, 3] 2 42).length = 2
    ∧ (randomSample [1, 2, 3] 2 42).Subperm [1, 2, 3] :=
  randomSample_length_subperm [1, 2, 3] 2 42 (by norm_num)

/-! ## Helper lemmas: the two-decimal rounding is the identity on scores -/

/-- Rounding to two decimals leaves a value with denominator 100 unchanged. -/
theorem round2_natCast_div (m : Nat) : round2 ((m : ℚ) / 100) = (m : ℚ) / 100 := by
  unfold round2
  have hm : (m : ℚ) / 100 * 100 + 1 / 2 = (m : ℚ) + 1 / 2 := by
    field_simp
  rw [hm]
  have hhalf : ⌊(1 : ℚ) / 2⌋ = 0 := by
    rw [Int.floor_eq_zero_iff]
    constructor <;> norm_num
  have hfloor : ⌊(m : ℚ) + 1 / 2⌋ = (m : ℤ) := by
    rw [add_comm, Int.floor_add_nat, hhalf, zero_add]
  rw [hfloor]
  push_cast
  ring

/-- The stored `impactScore` (`parseFloat(min(citationCount / 100, 5)
.toFixed(2))`) equals the unrounded `min(citationCount / 100, 5)` for every
natural citation count. -/
theorem round2_min_impact (c : Nat) :
    round2 (min ((c : ℚ) / 100) 5) = min ((c : ℚ) / 100) 5 := by
  rcases le_total ((c : ℚ) / 100) 5 with h | h
  · rw [min_eq_left h]
    exact round2_natCast_div c
  · rw [min_eq_right h]
    have h5 : (5 : ℚ) = ((500 : Nat) : ℚ) / 100 := by norm_num
    rw [h5]
    exact round2_natCast_div 500

/-! ## Claim C1 -/

/-- C1: for every candidate that survives the `findGaps` filters (so its
year is present, numeric and truthy), with `now` the current calendar
year: `mentionedScore = mentioned_count * 10`, `impactScore =
min(citationCount / 100, 5)` (the two-decimal display rounding is the
identity on these values), `recencyScore` is 3 if `now - year ≤ 3`, else 2
if `≤ 5`, else 1 if `≤ 10`, else 0, checked in that order, and
`totalScore` is the sum of the three. -/
theorem calculateScore_spec (c : Candidate) (currentYear y : Int)
    (hy : c.year = some y) (hy0 : ¬ y = 0) :
    (calculateScore c currentYear).mentionedScore = (c.mentioned_count : ℚ) * 10
    ∧ (calculateScore c currentYear).impactScore = min ((c.citationCount : ℚ) / 100) 5
    ∧ (calculateScore c currentYear).recencyScore =
        (if currentYear - y ≤ 3 then 3
         else if currentYear - y ≤ 5 then 2
         else if currentYear - y ≤ 10 then 1 else (0 : ℚ))
    ∧ (calculateScore c currentYear).totalScore =
        (c.mentioned_count : ℚ) * 10 + min ((c.citationCount : ℚ) / 100) 5
          + (if currentYear - y ≤ 3 then 3
             else if currentYear - y ≤ 5 then 2
             else if currentYear - y ≤ 10 then 1 else (0 : ℚ)) := by
  unfold calculateScore
  rw [hy]
  simp only [if_neg hy0]
  refine ⟨?_, ?_, ?_, ?_⟩ <;>
    first
      | exact round2_min_impact c.citationCount
      | rfl
      | trivial

/-- Witness for C1: a candidate with `mentioned_count = 5`, `citationCount
= 1000` and `year = currentYear = 2026` gets `mentionedScore = 50`,
`impactScore = 5` (capped), `recencyScore = 3` and `totalScore = 58`. -/
theorem calculateScore_spec_witness :
    (calculateScore ⟨"A", "T", some 2026, 1000, "S", 5⟩ 2026).mentionedScore = 50
    ∧ (calculateScore ⟨"A", "T", some 2026, 1000, "S", 5⟩ 2026).impactScore = 5
    ∧ (calculateScore ⟨"A", "T", some 2026, 1000, "S", 5⟩ 2026).recencyScore = 3
    ∧ (calculateScore ⟨"A", "T", some 2026, 1000, "S", 5⟩ 2026).totalScore = 58 := by
  obtain ⟨h1, h2, h3, h4⟩ :=
    calculateScore_spec ⟨"A", "T", some 2026, 1000, "S", 5⟩ 2026 2026 rfl (by norm_num)
  refine ⟨?_, ?_, ?_, ?_⟩
  · rw [h1]; norm_num
  · rw [h2]; norm_num
  · rw [h3]; norm_num
  · rw [h4]; norm_num

/-! ## Helper lemmas: the aggregation pass -/

/-- A map that does not change the tested predicate commutes with `find?`. -/
theorem find?_map_pres {α : Type _} (g : α → α) (p : α → Bool)
    (hg : ∀ a, p (g a) = p a) : ∀ l : List α, (l.map g).find? p = (l.find? p).map g
  | [] => rfl
  | a :: t => by
    cases hp : p a
    · rw [List.map_cons, List.find?_cons_of_neg _ (by simp [hg, hp]),
        List.find?_cons_of_neg _ (by simp [hp]), find?_map_pres g p hg t]
    · rw [List.map_cons, List.find?_cons_of_pos _ (by rw [hg]; exact hp),
        List.find?_cons_of_pos _ hp, Option.map_some']

/-- The increment map used by `addRecord` never changes `paperId`. -/
theorem bump_pres (k id : String) (c : Candidate) :
    (((if c.paperId == k then { c with mentioned_count := c.mentioned_count + 1 }
        else c) : Candidate).paperId == id) = (c.paperId == id) := by
  split <;> rfl

/-- `find?` on a singleton failing the predicate. -/
theorem find?_singleton_none {α : Type _} (p : α → Bool) (a : α) (h : p a = false) :
    List.find? p [a] = none := by
  rw [List.find?_cons_of_neg _ (by simp [h])]
  rfl

/-- Branch lemma: a record with a falsy identifier is skipped. -/
theorem addRecord_skip (acc : List Candidate) (r : CitationRecord) (hre : r.paperId = "") :
    addRecord acc r = acc := by
  unfold addRecord
  rw [if_pos hre]

/-- Branch lemma: a seen identifier increments the stored row in place. -/
theorem addRecord_bump (acc : List Candidate) (r : CitationRecord) (hre : ¬ r.paperId = "")
    (hany : acc.any (fun c => c.paperId == r.paperId) = true) :
    addRecord acc r = acc.map (fun c =>
      if c.paperId == r.paperId then { c with mentioned_count := c.mentioned_count + 1 }
      else c) := by
  unfold addRecord
  rw [if_neg hre, if_pos hany]

/-- Branch lemma: an unseen identifier appends a fresh row with count 1. -/
theorem addRecord_append (acc : List Candidate) (r : CitationRecord) (hre : ¬ r.paperId = "")
    (hany : acc.any (fun c => c.paperId == r.paperId) = false) :
    addRecord acc r = acc ++ [snapshotCandidate r 1] := by
  unfold addRecord
  rw [if_neg hre, if_neg (by simp [hany])]
  rfl

/-- Appending a record of a different identifier leaves the spec row of
`id` unchanged. -/
theorem aggregateSpec_append_miss (rs : List CitationRecord) (r : CitationRecord) (id : String)
    (hpred : (r.paperId == id) = false) :
    aggregateSpec (rs ++ [r]) id = aggregateSpec rs id := by
  unfold aggregateSpec
  have h1 : List.find? (fun r2 => r2.paperId == id) [r] = none :=
    find?_singleton_none (fun r2 => r2.paperId == id) r hpred
  have h2 : List.countP (fun r2 => r2.paperId == id) [r] = 0 := by
    simp [List.countP_cons, hpred]
  rw [List.find?_append, h1, Option.or_none, List.countP_append, h2, Nat.add_zero]

/-- Appending a record of identifier `id` increments the spec row of `id`,
creating it with count 1 if absent. -/
theorem aggregateSpec_append_hit (rs : List CitationRecord) (r : CitationRecord) (id : String)
    (hpred : (r.paperId == id) = true) :
    aggregateSpec (rs ++ [r]) id =
      match aggregateSpec rs id with
      | some c => some { c with mentioned_count := c.mentioned_count + 1 }
      | none => some (snapshotCandidate r 1) := by
  unfold aggregateSpec
  have h1 : List.find? (fun r2 => r2.paperId == id) [r] = some r :=
    List.find?_cons_of_pos _ hpred
  have h2 : List.countP (fun r2 => r2.paperId == id) [r] = 1 := by
    simp [List.countP_cons, hpred]
  rw [List.find?_append, List.countP_append, h1, h2]
  cases hrs : List.find? (fun r2 => r2.paperId == id) rs with
  | none =>
    have h0 : List.countP (fun r2 => r2.paperId == id) rs = 0 :=
      List.countP_eq_zero.mpr (List.find?_eq_none.mp hrs)
    simp [Option.or, h0]
  | some r0 =>
    simp [Option.or, snapshotCandidate]

/-- Adding a record of a different identifier leaves `find?` for `id`
unchanged on the aggregate. -/
theorem addRecord_find?_other (acc : List Candidate) (r : CitationRecord) (id : String)
    (hpred : (r.paperId == id) = false) :
    (addRecord acc r).find? (fun c => c.paperId == id) =
      acc.find? (fun c => c.paperId == id) := by
  by_cases hre : r.paperId = ""
  · rw [addRecord_skip _ _ hre]
  · by_cases hany : acc.any (fun c => c.paperId == r.paperId) = true
    · rw [addRecord_bump _ _ hre hany,
        find?_map_pres _ _ (fun c2 => bump_pres r.paperId id c2)]
      cases hfind : acc.find? (fun c => c.paperId == id) with
      | none => rfl
      | some c =>
        rw [Option.map_some']
        have hcpred := List.find?_some hfind
        have hcid : c.paperId = id := beq_iff_eq.mp hcpred
        have hcne : (c.paperId == r.paperId) = false := by
          rw [hcid]
          exact beq_eq_false_iff_ne.mpr fun h => (beq_eq_false_iff_ne.mp hpred) h.symm
        simp [hcne]
    · have hany2 : acc.any (fun c => c.paperId == r.paperId) = false := by
        cases h : acc.any (fun c => c.paperId == r.paperId)
        · rfl
        · exact absurd h hany
      rw [addRecord_append _ _ hre hany2, List.find?_append,
        find?_singleton_none (fun c => c.paperId == id) (snapshotCandidate r 1)
          (by exact hpred),
        Option.or_none]

/-- The aggregate's row for every non-empty identifier is exactly the spec
row: first-seen snapshot, `mentioned_count` = number of records bearing
the identifier. -/
theorem aggregate_find?_eq (id : String) (hid : ¬ id = "") (records : List CitationRecord) :
    (aggregate records).find? (fun c => c.paperId == id) = aggregateSpec records id := by
  induction records using List.reverseRecOn with
  | nil => rfl
  | append_singleton rs r ih =>
    have hagg : aggregate (rs ++ [r]) = addRecord (aggregate rs) r := by
      unfold aggregate
      rw [List.foldl_append, List.foldl_cons, List.foldl_nil]
    rw [hagg]
    by_cases hre : r.paperId = ""
    · have hpred : (r.paperId == id) = false := by
        rw [hre]
        exact beq_eq_false_iff_ne.mpr fun h => hid h.symm
      rw [addRecord_skip _ _ hre, ih, aggregateSpec_append_miss rs r id hpred]
    · by_cases hpid : r.paperId = id
      · have hpred : (r.paperId == id) = true := beq_iff_eq.mpr hpid
        rw [aggregateSpec_append_hit rs r id hpred, ← ih]
        cases hfind : (aggregate rs).find? (fun c => c.paperId == id) with
        | some c =>
          have hcpred := List.find?_some hfind
          have hany : (aggregate rs).any (fun c2 => c2.paperId == r.paperId) = true := by
            rw [List.any_eq_true]
            refine ⟨c, List.mem_of_find?_eq_some hfind, ?_⟩
            rw [hpid]
            exact hcpred
          rw [addRecord_bump _ _ hre hany,
            find?_map_pres _ _ (fun c2 => bump_pres r.paperId id c2), hfind,
            Option.map_some']
          have hcr : (c.paperId == r.paperId) = true := by
            rw [hpid]
            exact hcpred
          simp [hcr]
        | none =>
          have hany : (aggregate rs).any (fun c2 => c2.paperId == r.paperId) = false := by
            rw [List.any_eq_false]
            intro c2 hc2
            have h2 := List.find?_eq_none.mp hfind c2 hc2
            rw [hpid]
            exact h2
          rw [addRecord_append _ _ hre hany, List.find?_append, hfind]
          have hnew : List.find? (fun c => c.paperId == id) [snapshotCandidate r 1] =
              some (snapshotCandidate r 1) :=
            List.find?_cons_of_pos _ (by exact hpred)
          rw [hnew]
          rfl
      · have hpred : (r.paperId == id) = false := beq_eq_false_iff_ne.mpr hpid
        rw [aggregateSpec_append_miss rs r id hpred, ← ih]
        exact addRecord_find?_other (aggregate rs) r id hpred

/-- Records with an empty identifier are discarded by the dedup pass. -/
theorem foldl_addRecord_filter : ∀ (l : List CitationRecord) (acc : List Candidate),
    l.foldl addRecord acc = (l.filter (fun r => !(r.paperId == ""))).foldl addRecord acc
  | [], _ => rfl
  | r :: t, acc => by
    rw [List.foldl_cons]
    by_cases hre : r.paperId = ""
    · rw [addRecord_skip _ _ hre,
        List.filter_cons_of_neg (by simp [beq_iff_eq.mpr hre])]
      exact foldl_addRecord_filter t acc
    · rw [List.filter_cons_of_pos (by simp [beq_eq_false_iff_ne.mpr hre]),
        List.foldl_cons]
      exact foldl_addRecord_filter t (addRecord acc r)

/-! ## Claim C3 -/

/-- C3: aggregation iterates raw records in arrival order; a record with a
non-empty identifier creates a new aggregate with `mentioned_count = 1`
the first time its identifier is seen and increments it on every later
record with the same identifier, keeping the first-seen record's
title/year snapshot (the row for each non-empty `id` equals
`aggregateSpec`, the first-matching-record snapshot carrying the full
match count); records lacking an identifier are discarded entirely. -/
theorem aggregate_matches_spec (records : List CitationRecord) (id : String)
    (hid : ¬ id = "") :
    (aggregate records).find? (fun c => c.paperId == id) = aggregateSpec records id
    ∧ aggregate records = aggregate (records.filter (fun r => !(r.paperId == ""))) :=
  ⟨aggregate_find?_eq id hid records, foldl_addRecord_filter records []⟩

/-- Witness for C3: raw records `[A, A, B]` aggregate to exactly two
candidates, `A` with `mentioned_count = 2` (keeping the first `A` record's
snapshot) and `B` with `mentioned_count = 1`. -/
theorem aggregate_matches_spec_witness :
    (aggregate exampleRecords).find? (fun c => c.paperId == "A") =
      some { paperId := "A", title := "tA", year := some 2020, citationCount := 3,
             citedBy := "s1", mentioned_count := 2 }
    ∧ (aggregate exampleRecords).find? (fun c => c.paperId == "B") =
      some { paperId := "B", title := "tB", year := some 2019, citationCount := 7,
             citedBy := "s2", mentioned_count := 1 }
    ∧ (aggregate exampleRecords).length = 2 := by
  refine ⟨?_, ?_, by decide⟩
  · rw [(aggregate_matches_spec exampleRecords "A" (by decide)).1]
    decide
  · rw [(aggregate_matches_spec exampleRecords "B" (by decide)).1]
    decide

/-! ## Helper lemmas: aggregate invariants -/

/-- One `addRecord` step preserves the aggregate invariants: pairwise
distinct identifiers, no empty identifier, every count at least 1. -/
theorem addRecord_inv (acc : List Candidate) (r : CitationRecord)
    (h1 : (acc.map (fun c => c.paperId)).Nodup)
    (h2 : ∀ c ∈ acc, ¬ c.paperId = "" ∧ 1 ≤ c.mentioned_count) :
    ((addRecord acc r).map (fun c => c.paperId)).Nodup
    ∧ ∀ c ∈ addRecord acc r, ¬ c.paperId = "" ∧ 1 ≤ c.mentioned_count := by
  by_cases hre : r.paperId = ""
  · rw [addRecord_skip _ _ hre]
    exact ⟨h1, h2⟩
  · by_cases hany : acc.any (fun c => c.paperId == r.paperId) = true
    · rw [addRecord_bump _ _ hre hany]
      constructor
      · rw [List.map_map]
        have hcomp : ((fun c : Candidate => c.paperId) ∘ (fun c =>
            if c.paperId == r.paperId
            then { c with mentioned_count := c.mentioned_count + 1 } else c))
            = fun c : Candidate => c.paperId := by
          funext c
          by_cases h : (c.paperId == r.paperId) = true <;> simp [h, Function.comp]
        rw [hcomp]
        exact h1
      · intro c hc
        rw [List.mem_map] at hc
        obtain ⟨c0, hc0, rfl⟩ := hc
        obtain ⟨ha, hb⟩ := h2 c0 hc0
        split
        · refine ⟨ha, ?_⟩
          show 1 ≤ c0.mentioned_count + 1
          omega
        · exact ⟨ha, hb⟩
    · have hany2 : acc.any (fun c => c.paperId == r.paperId) = false := by
        cases h : acc.any (fun c => c.paperId == r.paperId)
        · rfl
        · exact absurd h hany
      rw [addRecord_append _ _ hre hany2]
      constructor
      · rw [List.map_append, List.nodup_append]
        refine ⟨h1, List.nodup_singleton _, ?_⟩
        intro a ha hb
        simp only [List.map_cons, List.map_nil, List.mem_singleton] at hb
        subst hb
        rw [List.mem_map] at ha
        obtain ⟨c0, hc0, hceq⟩ := ha
        exact (List.any_eq_false.mp hany2 c0 hc0) (beq_iff_eq.mpr hceq)
      · intro c hc
        rw [List.mem_append] at hc
        rcases hc with hc | hc
        · exact h2 c hc
        · rw [List.mem_singleton] at hc
          subst hc
          exact ⟨hre, le_refl 1⟩

/-- The aggregate invariants hold for every record list. -/
theorem aggregate_inv (records : List CitationRecord) :
    ((aggregate records).map (fun c => c.paperId)).Nodup
    ∧ ∀ c ∈ aggregate records, ¬ c.paperId = "" ∧ 1 ≤ c.mentioned_count := by
  have key : ∀ (l : List CitationRecord) (acc : List Candidate),
      (acc.map (fun c => c.paperId)).Nodup →
      (∀ c ∈ acc, ¬ c.paperId = "" ∧ 1 ≤ c.mentioned_count) →
      ((l.foldl addRecord acc).map (fun c => c.paperId)).Nodup
      ∧ ∀ c ∈ l.foldl addRecord acc, ¬ c.paperId = "" ∧ 1 ≤ c.mentioned_count := by
    intro l
    induction l with
    | nil => exact fun acc ha hb => ⟨ha, hb⟩
    | cons r t ih =>
      intro acc h1 h2
      rw [List.foldl_cons]
      obtain ⟨g1, g2⟩ := addRecord_inv acc r h1 h2
      exact ih _ g1 g2
  exact key records [] (by simp) (by simp)

/-- In a list with pairwise distinct identifiers, `find?` on a member's
identifier returns that member. -/
theorem find?_self_of_nodup_keys : ∀ (l : List Candidate),
    (l.map (fun c => c.paperId)).Nodup → ∀ b : Candidate, b ∈ l →
    l.find? (fun c => c.paperId == b.paperId) = some b
  | [], _, b, hb => absurd hb (List.not_mem_nil b)
  | a :: t, hkeys, b, hb => by
    rw [List.map_cons, List.nodup_cons] at hkeys
    obtain ⟨hnk, hkt⟩ := hkeys
    rcases List.mem_cons.mp hb with rfl | hbt
    · exact List.find?_cons_of_pos _ (beq_iff_eq.mpr rfl)
    · have hne : (a.paperId == b.paperId) = false := by
        refine beq_eq_false_iff_ne.mpr fun h => hnk ?_
        rw [h]
        exact List.mem_map.mpr ⟨b, hbt, rfl⟩
      rw [List.find?_cons_of_neg _ (by simp [hne])]
      exact find?_self_of_nodup_keys t hkt b hbt

/-- Every aggregated row's `mentioned_count` equals the number of raw
records bearing its identifier. -/
theorem mem_aggregate_count (records : List CitationRecord) (c : Candidate)
    (hc : c ∈ aggregate records) :
    c.mentioned_count = records.countP (fun r => r.paperId == c.paperId) := by
  obtain ⟨hkeys, hmem⟩ := aggregate_inv records
  have hfind := find?_self_of_nodup_keys (aggregate records) hkeys c hc
  rw [aggregate_find?_eq c.paperId (hmem c hc).1 records] at hfind
  cases hrs : records.find? (fun r => r.paperId == c.paperId) with
  | none =>
    have hnone : aggregateSpec records c.paperId = none := by
      unfold aggregateSpec
      rw [hrs]
    rw [hnone] at hfind
    cases hfind
  | some r =>
    have hspec : aggregateSpec records c.paperId
        = some (snapshotCandidate r (records.countP (fun r2 => r2.paperId == c.paperId))) := by
      unfold aggregateSpec
      rw [hrs]
    rw [hspec] at hfind
    exact (congrArg Candidate.mentioned_count (Option.some.inj hfind)).symm

/-- A source whose (non-empty) candidate identifiers are pairwise distinct
contributes at most one record per identifier. -/
theorem sourceRecords_countP_le_one (src : Source) (id : String) (hid : ¬ id = "")
    (hnodup : (((sourceRecords src).filter (fun r => !(r.paperId == ""))).map
      (fun r => r.paperId)).Nodup) :
    (sourceRecords src).countP (fun r => r.paperId == id) ≤ 1 := by
  have hcongr : (sourceRecords src).countP (fun r => r.paperId == id)
      = ((sourceRecords src).filter (fun r => !(r.paperId == ""))).countP
          (fun r => r.paperId == id) := by
    rw [List.countP_filter]
    apply List.countP_congr
    intro a _
    cases hpa : (a.paperId == id)
    · simp [hpa]
    · have : ¬ a.paperId = "" := by
        rw [beq_iff_eq.mp hpa]
        exact hid
      simp [hpa, this]
  have hmap : ((sourceRecords src).filter (fun r => !(r.paperId == ""))).countP
      (fun r => r.paperId == id)
      = (((sourceRecords src).filter (fun r => !(r.paperId == ""))).map
          (fun r => r.paperId)).count id := by
    rw [List.count_eq_countP, List.countP_map]
    rfl
  rw [hcongr, hmap]
  exact List.nodup_iff_count_le_one.mp hnodup id

/-! ## Claim C4 -/

/-- Counterexample for C4: a run over a single source whose response lists
the same candidate identifier twice produces a `CandidateAggregate` whose
`mentioned_count` (2) exceeds the number of SourcePapers processed (1) --
the aggregation counts raw records, not distinct sources. -/
theorem fetchCitations_mentionCount_counterexample :
    ¬ (∀ c ∈ (fetchCitations [dupSource]).all_citations,
        c.mentioned_count ≤ [dupSource].length) := by
  decide

/-- C4 (amended): after every run the aggregated collection has pairwise
distinct identifiers and every `mentioned_count` is at least 1;
`mentioned_count` is bounded by the number of SourcePapers processed
provided no source's citation list repeats a (non-empty) candidate
identifier -- without that proviso the bound fails, because the
aggregation increments once per raw record. -/
theorem fetchCitations_invariants (sources : List Source) :
    ((fetchCitations sources).all_citations.map (fun c => c.paperId)).Nodup
    ∧ (∀ c ∈ (fetchCitations sources).all_citations, 1 ≤ c.mentioned_count)
    ∧ ((∀ src ∈ sources,
          (((sourceRecords src).filter (fun r => !(r.paperId == ""))).map
            (fun r => r.paperId)).Nodup) →
        ∀ c ∈ (fetchCitations sources).all_citations,
          c.mentioned_count ≤ sources.length) := by
  obtain ⟨hkeys, hmem⟩ := aggregate_inv ((sources.map sourceRecords).flatten)
  have hall : (fetchCitations sources).all_citations
      = aggregate ((sources.map sourceRecords).flatten) := rfl
  refine ⟨hall ▸ hkeys, fun c hc => (hmem c (hall ▸ hc)).2, fun hsrc c hc => ?_⟩
  rw [hall] at hc
  rw [mem_aggregate_count _ c hc, List.countP_flatten]
  have hbound : ∀ x ∈ (sources.map sourceRecords).map
      (List.countP (fun r => r.paperId == c.paperId)), x ≤ 1 := by
    intro x hx
    rw [List.map_map, List.mem_map] at hx
    obtain ⟨src, hsrcmem, rfl⟩ := hx
    exact sourceRecords_countP_le_one src c.paperId (hmem c hc).1 (hsrc src hsrcmem)
  calc ((sources.map sourceRecords).map
        (List.countP (fun r => r.paperId == c.paperId))).sum
      ≤ ((sources.map sourceRecords).map
          (List.countP (fun r => r.paperId == c.paperId))).length • 1 :=
        List.sum_le_card_nsmul _ 1 hbound
    _ = sources.length := by
        simp [smul_eq_mul]

/-- Witness for C4: a source listing two distinct candidates yields the
`X` row, whose `mentioned_count` respects the source-count bound. -/
theorem fetchCitations_invariants_witness :
    cleanCandidate ∈ (fetchCitations [cleanSource]).all_citations
    ∧ cleanCandidate.mentioned_count ≤ [cleanSource].length :=
  ⟨by decide,
   (fetchCitations_invariants [cleanSource]).2.2 (by decide) cleanCandidate (by decide)⟩

/-! ## Helper lemmas: the retry recursion -/

/-- A successful attempt ends the recursion at once. -/
theorem retryGo_data (oracle : Nat → LowResult) (fuel attempt : Nat) (d : PaperData)
    (h : oracle attempt = .data d) : retryGo oracle fuel attempt = (some d, []) := by
  unfold retryGo
  rw [h]

/-- A `null` attempt (not found / parse error / other failure) ends the
recursion at once. -/
theorem retryGo_null (oracle : Nat → LowResult) (fuel attempt : Nat)
    (h : oracle attempt = .nullR) : retryGo oracle fuel attempt = (none, []) := by
  unfold retryGo
  rw [h]

/-- Rate-limited with no fuel left: the sentinel collapses to `null`. -/
theorem retryGo_rl_zero (oracle : Nat → LowResult) (attempt : Nat)
    (h : oracle attempt = .rateLimited) : retryGo oracle 0 attempt = (none, []) := by
  unfold retryGo
  rw [h]

/-- Rate-limited with fuel left: wait `delay * attempt * 2` and retry. -/
theorem retryGo_rl_succ (oracle : Nat → LowResult) (fuel attempt : Nat)
    (h : oracle attempt = .rateLimited) :
    retryGo oracle (fuel + 1) attempt =
      ((retryGo oracle fuel (attempt + 1)).1,
        delay * attempt * 2 :: (retryGo oracle fuel (attempt + 1)).2) := by
  conv_lhs => unfold retryGo
  rw [h]

/-- Exhaustive unfolding of the retry wrapper over the first three
attempts (the only ones `maxRetries = 3` allows). -/
theorem fetchRetry_cases (oracle : Nat → LowResult) :
    fetchPaperByDOIWithRetry oracle 1 =
      match oracle 1 with
      | .data d => (some d, [])
      | .nullR => (none, [])
      | .rateLimited =>
        match oracle 2 with
        | .data d => (some d, [delay * 1 * 2])
        | .nullR => (none, [delay * 1 * 2])
        | .rateLimited =>
          match oracle 3 with
          | .data d => (some d, [delay * 1 * 2, delay * 2 * 2])
          | .nullR => (none, [delay * 1 * 2, delay * 2 * 2])
          | .rateLimited => (none, [delay * 1 * 2, delay * 2 * 2]) := by
  show retryGo oracle 2 1 = _
  cases h1 : oracle 1 with
  | data d => rw [retryGo_data oracle 2 1 d h1]
  | nullR => rw [retryGo_null oracle 2 1 h1]
  | rateLimited =>
    rw [retryGo_rl_succ oracle 1 1 h1]
    cases h2 : oracle 2 with
    | data d => rw [retryGo_data oracle 1 2 d h2]
    | nullR => rw [retryGo_null oracle 1 2 h2]
    | rateLimited =>
      rw [retryGo_rl_succ oracle 0 2 h2]
      cases h3 : oracle 3 with
      | data d => rw [retryGo_data oracle 0 3 d h3]
      | nullR => rw [retryGo_null oracle 0 3 h3]
      | rateLimited => rw [retryGo_rl_zero oracle 3 h3]

/-- A failed source contributes no citation records. -/
theorem sourceRecords_of_fail (src : Source) (h : sourceResult src = none) :
    sourceRecords src = [] := by
  unfold sourceRecords
  rw [h]

/-! ## Claim C5 -/

/-- C5: the fetcher makes at most `maxRetries = 3` attempts for one
source; the backoff waits before the retries are `delay * attempt * 2`
(6000 ms then 12000 ms -- twice the base inter-request delay, doubling);
when every attempt is rate-limited the retries exhaust and the source
resolves to the ordinary failure `none` (never a distinct rate-limited
outcome); and a source that resolves to failure contributes no citations
while the remaining sources are processed unchanged. -/
theorem retry_policy (oracle : Nat → LowResult) :
    ((fetchPaperByDOIWithRetry oracle 1).2 = []
      ∨ (fetchPaperByDOIWithRetry oracle 1).2 = [delay * 1 * 2]
      ∨ (fetchPaperByDOIWithRetry oracle 1).2 = [delay * 1 * 2, delay * 2 * 2])
    ∧ (fetchPaperByDOIWithRetry oracle 1).2.length + 1 ≤ maxRetries
    ∧ ((∀ k, oracle k = .rateLimited) →
        fetchPaperByDOIWithRetry oracle 1 = (none, [delay * 1 * 2, delay * 2 * 2]))
    ∧ (∀ (pre post : List Source) (src : Source), sourceResult src = none →
        (fetchCitations (pre ++ src :: post)).all_citations
          = (fetchCitations (pre ++ post)).all_citations) := by
  have hcases := fetchRetry_cases oracle
  have hpre : (fetchPaperByDOIWithRetry oracle 1).2 = []
      ∨ (fetchPaperByDOIWithRetry oracle 1).2 = [delay * 1 * 2]
      ∨ (fetchPaperByDOIWithRetry oracle 1).2 = [delay * 1 * 2, delay * 2 * 2] := by
    rw [hcases]
    cases oracle 1 <;> simp
    cases oracle 2 <;> simp
    cases oracle 3 <;> simp
  refine ⟨hpre, ?_, ?_, ?_⟩
  · rcases hpre with h | h | h <;> rw [h] <;> simp [maxRetries]
  · intro hall
    rw [hcases, hall 1, hall 2, hall 3]
  · intro pre post src hsrc
    show aggregate ((List.map sourceRecords (pre ++ src :: post)).flatten)
        = aggregate ((List.map sourceRecords (pre ++ post)).flatten)
    rw [List.map_append, List.map_cons, List.map_append,
      sourceRecords_of_fail src hsrc, List.flatten_append, List.flatten_cons,
      List.flatten_append, List.nil_append]

/-- Witness for C5: with every attempt rate-limited, the fetcher waits
6000 ms and 12000 ms and resolves to the ordinary failure `none`; a
failed source placed between others leaves the aggregation unchanged. -/
theorem retry_policy_witness :
    fetchPaperByDOIWithRetry (fun _ => .rateLimited) 1 = (none, [6000, 12000])
    ∧ (fetchCitations [cleanSource, failingSource]).all_citations
        = (fetchCitations [cleanSource]).all_citations := by
  constructor
  · have h := (retry_policy (fun _ => .rateLimited)).2.2.1 (fun k => rfl)
    simpa [delay] using h
  · have h := (retry_policy (fun _ => .rateLimited)).2.2.2 [cleanSource] []
      failingSource (by decide)
    simpa using h

/-! ## Helper lemma: findGaps on an empty candidate list -/

/-- With no candidates at all, `findGaps` returns the empty list. -/
theorem findGaps_nil (userPaperIds : List String) (opts : GapOptions) (currentYear : Int) :
    findGaps [] userPaperIds opts currentYear = [] := rfl

/-! ## Claim C6 -/

/-- Counterexample for C6: a run whose only source fails on every attempt
(zero citations collected) ends in the very same `noGaps` outcome -- the
"No knowledge gaps found. Your library is well-covered!" notification --
as a valid run whose non-empty citation set merely filters down to an
empty gap list, and it is not reported through a distinct "no usable
data" failure: the `!citationData.all_citations` guard in `run` can never
fire because an empty array is truthy in JavaScript. -/
theorem run_zero_citations_counterexample :
    run [failingSource] 2026 = .noGaps
    ∧ (fetchCitations [failingSource]).all_citations.length = 0
    ∧ run [singleCitationSource] 2026 = .noGaps
    ∧ 0 < (fetchCitations [singleCitationSource]).all_citations.length
    ∧ run [failingSource] 2026 = run [singleCitationSource] 2026
    ∧ ¬ run [failingSource] 2026 = .errorNoDOI := by
  decide

/-- C6 (amended): per-source failures alone never raise an unrecoverable
error for the run -- zero eligible DOI-bearing sources is reported as the
distinct `errorNoDOI` outcome, but when every eligible source fails and
the run collects zero citations the run ends in the same `noGaps`
notification as an empty-but-valid gap list (an unsuccessful outcome, not
a distinct "no usable data" failure). -/
theorem run_all_sources_fail (papers : List Source) (currentYear : Int)
    (hne : ¬ papers.length = 0)
    (hdoi : ¬ (papers.filter (fun p => hasUsableDOI p.1)).length = 0)
    (hfail : ∀ src ∈ papers.filter (fun p => hasUsableDOI p.1), sourceResult src = none) :
    run papers currentYear = .noGaps := by
  have hflat : ((papers.filter (fun p => hasUsableDOI p.1)).map sourceRecords).flatten
      = [] := by
    rw [List.flatten_eq_nil_iff]
    intro l hl
    rw [List.mem_map] at hl
    obtain ⟨src, hsrc, rfl⟩ := hl
    exact sourceRecords_of_fail src (hfail src hsrc)
  have hcand : (fetchCitations (papers.filter (fun p => hasUsableDOI p.1))).all_citations
      = [] := by
    show aggregate _ = []
    rw [hflat]
    rfl
  unfold run
  rw [if_neg hne]
  dsimp only
  rw [if_neg hdoi, hcand, findGaps_nil]
  rfl

/-- Witness for C6 at the concrete all-fail run. -/
theorem run_all_sources_fail_witness :
    run [failingSource] 2026 = .noGaps :=
  run_all_sources_fail [failingSource] 2026 (by decide) (by decide) (by decide)

/-! ## Helper lemmas: membership through marking -/

/-- Every element of the marked list is an element of the input, possibly
with its `isEarlyInfluential` flag set. -/
theorem mem_markEarlyInfluential (recs : List Recommendation) (topN : Nat) :
    ∀ r ∈ markEarlyInfluential recs topN, ∃ r0 ∈ recs,
      r = r0 ∨ r = { r0 with isEarlyInfluential := true } := by
  intro r hr
  unfold markEarlyInfluential at hr
  split at hr
  · exact ⟨r, hr, Or.inl rfl⟩
  · split at hr
    · exact ⟨r, hr, Or.inl rfl⟩
    · rw [List.mem_map] at hr
      obtain ⟨p, hp, rfl⟩ := hr
      have hsnd : p.2 ∈ recs := by
        have := List.mem_map_of_mem Prod.snd hp
        rwa [List.enum_map_snd] at this
      refine ⟨p.2, hsnd, ?_⟩
      split
      · exact Or.inr rfl
      · exact Or.inl rfl

/-! ## Claim C2 -/

/-- C2: a candidate appears in the `findGaps` output only if its
identifier is not among the user's own paper ids (own papers are always
excluded, regardless of score), its year is present, numeric and at least
`minYear`, and its `mentioned_count` is at least `minMentions`; and if
the filtered set is empty the result is the empty list, not an error. -/
theorem findGaps_filters (allCitations : List Candidate) (userPaperIds : List String)
    (opts : GapOptions) (currentYear : Int) :
    (∀ r ∈ findGaps allCitations userPaperIds opts currentYear,
      r.paperId ∉ userPaperIds
      ∧ (∃ y : Int, r.year = some y ∧ opts.minYear ≤ y)
      ∧ opts.minMentions ≤ r.mentioned_count)
    ∧ (gapFiltered allCitations userPaperIds opts = [] →
        findGaps allCitations userPaperIds opts currentYear = []) := by
  constructor
  · intro r hr
    unfold findGaps at hr
    split at hr
    · cases hr
    · have hr2 := List.mem_of_mem_take hr
      obtain ⟨r0, hr0, hcase⟩ := mem_markEarlyInfluential _ _ r hr2
      have hperm := List.perm_insertionSort
        (fun a b : Recommendation => b.totalScore ≤ a.totalScore)
        ((gapFiltered allCitations userPaperIds opts).map (fun c => decorate c currentYear))
      have hr0m : r0 ∈ (gapFiltered allCitations userPaperIds opts).map
          (fun c => decorate c currentYear) := hperm.mem_iff.mp hr0
      rw [List.mem_map] at hr0m
      obtain ⟨c, hcmem, rfl⟩ := hr0m
      unfold gapFiltered at hcmem
      rw [List.mem_filter] at hcmem
      obtain ⟨hc2, hmention⟩ := hcmem
      rw [List.mem_filter] at hc2
      obtain ⟨hc1, hyear⟩ := hc2
      rw [List.mem_filter] at hc1
      obtain ⟨_, hown⟩ := hc1
      have hfields : r.paperId = c.paperId ∧ r.year = c.year
          ∧ r.mentioned_count = c.mentioned_count := by
        rcases hcase with rfl | rfl <;> exact ⟨rfl, rfl, rfl⟩
      obtain ⟨hf1, hf2, hf3⟩ := hfields
      refine ⟨?_, ?_, ?_⟩
      · rw [hf1]
        simpa using hown
      · rw [hf2]
        unfold yearOk at hyear
        cases hcy : c.year with
        | none => rw [hcy] at hyear; cases hyear
        | some y =>
          rw [hcy] at hyear
          rw [Bool.and_eq_true] at hyear
          exact ⟨y, rfl, of_decide_eq_true hyear.2⟩
      · rw [hf3]
        exact of_decide_eq_true hmention
  · intro h
    unfold findGaps
    rw [h]
    rfl

/-- Witness for C2: the surviving candidate `C` (not owned, year 2020,
three mentions) satisfies all three filter conditions in the output, and
a run whose only candidate has a single mention filters down to the empty
list, returned without error. -/
theorem findGaps_filters_witness :
    (decorate exampleCandidate 2026).paperId ∉ (["X"] : List String)
    ∧ (∃ y : Int, (decorate exampleCandidate 2026).year = some y ∧ (2010 : Int) ≤ y)
    ∧ 2 ≤ (decorate exampleCandidate 2026).mentioned_count
    ∧ findGaps [weakCandidate] ["X"] ⟨2010, 10, 2⟩ 2026 = [] := by
  have hmem : decorate exampleCandidate 2026
      ∈ findGaps [exampleCandidate] ["X"] ⟨2010, 10, 2⟩ 2026 := by
    show decorate exampleCandidate 2026 ∈ [decorate exampleCandidate 2026]
    exact List.mem_singleton_self _
  obtain ⟨h1, h2, h3⟩ :=
    (findGaps_filters [exampleCandidate] ["X"] ⟨2010, 10, 2⟩ 2026).1 _ hmem
  exact ⟨h1, h2, h3,
    (findGaps_filters [weakCandidate] ["X"] ⟨2010, 10, 2⟩ 2026).2 (by decide)⟩

/-! ## Helper lemmas: the early-influential marking -/

/-- Counting a predicate on second components equals counting over the
projected list. -/
theorem countP_comp_snd {β : Type _} (q : β → Bool) (l : List (Nat × β)) :
    List.countP (fun p => q p.2) l = List.countP q (l.map Prod.snd) := by
  rw [List.countP_map]
  rfl

/-- The qualifying sub-selection has as many entries as the plain-window
filter of the claim. -/
theorem earlyPapers_length (recs : List Recommendation) (topN : Nat) :
    (earlyPapers recs topN).length
      = ((recs.take (min (topN * 2) recs.length)).filter earlyQualifies).length := by
  unfold earlyPapers earlyWindow
  rw [← List.countP_eq_length_filter, ← List.countP_eq_length_filter,
    countP_comp_snd, List.map_take, List.enum_map_snd]

/-- The qualifying sub-selection is a sublist of the tagged list. -/
theorem earlyPapers_sublist (recs : List Recommendation) (topN : Nat) :
    List.Sublist (earlyPapers recs topN) recs.enum := by
  unfold earlyPapers earlyWindow
  exact (List.filter_sublist _).trans (List.take_sublist _ _)

/-- The positions of the qualifying sub-selection are pairwise distinct. -/
theorem earlyPapers_fst_nodup (recs : List Recommendation) (topN : Nat) :
    ((earlyPapers recs topN).map Prod.fst).Nodup := by
  have hsubm : List.Sublist ((earlyPapers recs topN).map Prod.fst)
      (recs.enum.map Prod.fst) := (earlyPapers_sublist recs topN).map _
  rw [List.enum_map_fst] at hsubm
  exact hsubm.nodup (List.nodup_range _)

/-- The year sort permutes the qualifying sub-selection. -/
theorem earlySorted_perm (recs : List Recommendation) (topN : Nat) :
    (earlySorted recs topN).Perm (earlyPapers recs topN) := by
  unfold earlySorted
  exact List.perm_insertionSort _ _

/-- The marked positions are pairwise distinct. -/
theorem earlyMarkIdx_nodup (recs : List Recommendation) (topN : Nat) :
    (earlyMarkIdx recs topN).Nodup := by
  unfold earlyMarkIdx
  have hperm : ((earlySorted recs topN).map Prod.fst).Perm
      ((earlyPapers recs topN).map Prod.fst) := (earlySorted_perm recs topN).map _
  have hnd : ((earlySorted recs topN).map Prod.fst).Nodup :=
    hperm.nodup_iff.mpr (earlyPapers_fst_nodup recs topN)
  exact (((List.take_sublist _ _).map Prod.fst)).nodup hnd

/-- Exactly `min 2 earlyPapers.length` positions are marked. -/
theorem earlyMarkIdx_length (recs : List Recommendation) (topN : Nat) :
    (earlyMarkIdx recs topN).length = min 2 (earlyPapers recs topN).length := by
  unfold earlyMarkIdx
  rw [List.length_map, List.length_take, (earlySorted_perm recs topN).length_eq]
  exact min_eq_left (min_le_right _ _)

/-- A marked position comes from a qualifying entry that sits among the
first `min 2 earlyPapers.length` entries of the year-sorted selection. -/
theorem earlyMarkIdx_mem (recs : List Recommendation) (topN : Nat) (i : Nat)
    (hi : i ∈ earlyMarkIdx recs topN) :
    ∃ p, p ∈ earlyPapers recs topN ∧ p.1 = i
      ∧ p ∈ (earlySorted recs topN).take (min 2 (earlyPapers recs topN).length) := by
  unfold earlyMarkIdx at hi
  rw [List.mem_map] at hi
  obtain ⟨p, hp, rfl⟩ := hi
  exact ⟨p, (earlySorted_perm recs topN).mem_iff.mp (List.mem_of_mem_take hp), rfl, hp⟩

/-- Tagged entries agreeing on their position are equal. -/
theorem enum_fst_inj (recs : List Recommendation) :
    ∀ p ∈ recs.enum, ∀ q ∈ recs.enum, p.1 = q.1 → p = q := by
  have hd : (recs.enum.map Prod.fst).Nodup := by
    rw [List.enum_map_fst]
    exact List.nodup_range _
  exact List.inj_on_of_nodup_map hd

/-- Counting members of a duplicate-free sublist inside a duplicate-free
list yields the sublist's length. -/
theorem countP_contains_of_nodup (t l : List Nat) (ht : t.Nodup) (hl : l.Nodup)
    (hsub : ∀ x ∈ t, x ∈ l) :
    l.countP (fun x => t.contains x) = t.length := by
  rw [List.countP_eq_length_filter]
  have hperm : (l.filter (fun x => t.contains x)).Perm t := by
    apply List.Subperm.antisymm
    · apply List.Nodup.subperm (hl.filter _)
      intro x hx
      rw [List.mem_filter] at hx
      simpa using hx.2
    · apply List.Nodup.subperm ht
      intro x hx
      rw [List.mem_filter]
      exact ⟨hsub x hx, by simpa using hx⟩
  exact hperm.length_eq

/-- A list containing an element failing the predicate has strictly more
elements than the predicate's count. -/
theorem countP_lt_length_of_mem_false {α : Type _} (p : α → Bool) :
    ∀ (t : List α) (a : α), a ∈ t → p a = false → List.countP p t + 1 ≤ t.length
  | [], a, ha, _ => absurd ha (List.not_mem_nil a)
  | b :: t2, a, ha, hpa => by
    rcases List.mem_cons.mp ha with rfl | hat
    · rw [List.countP_cons_of_neg _ _ (by simp [hpa]), List.length_cons]
      exact Nat.succ_le_succ (List.countP_le_length _)
    · have ih := countP_lt_length_of_mem_false p t2 a hat hpa
      rw [List.countP_cons, List.length_cons]
      split <;> omega

/-- Bool-level membership implies membership. -/
theorem mem_of_contains {α : Type _} [BEq α] [LawfulBEq α] {l : List α} {a : α}
    (h : l.contains a = true) : a ∈ l := by
  simpa using h

/-- The elements of the input are tagged entries; a tagged entry's second
component is a member of the input. -/
theorem enum_snd_mem (recs : List Recommendation) (p : Nat × Recommendation)
    (hp : p ∈ recs.enum) : p.2 ∈ recs := by
  have := List.mem_map_of_mem Prod.snd hp
  rwa [List.enum_map_snd] at this

/-- Exactly `min 2 count` entries end up flagged, where `count` is the
number of qualifying entries of the window (assuming no flag was set on
input, which is how `findGaps` calls the marker). -/
theorem markEarly_count (recs : List Recommendation) (topN : Nat)
    (hflags : ∀ r ∈ recs, r.isEarlyInfluential = false) :
    ((markEarlyInfluential recs topN).filter (fun r => r.isEarlyInfluential)).length
      = min 2 (((recs.take (min (topN * 2) recs.length)).filter earlyQualifies).length) := by
  rw [← earlyPapers_length recs topN]
  unfold markEarlyInfluential
  split
  · next h =>
    rw [List.length_eq_zero.mp h]
    simp [earlyPapers, earlyWindow]
  · next h0 =>
    split
    · next hE =>
      have hzero : List.countP (fun r : Recommendation => r.isEarlyInfluential) recs = 0 :=
        List.countP_eq_zero.mpr (fun a ha => by simp [hflags a ha])
      rw [← List.countP_eq_length_filter, hzero, hE]
      rfl
    · next hE =>
      rw [← earlyMarkIdx_length recs topN]
      rw [← List.countP_eq_length_filter, List.countP_map]
      have hpt : ∀ p ∈ recs.enum,
          (((fun r : Recommendation => r.isEarlyInfluential) ∘
            (fun p : Nat × Recommendation =>
              if (earlyMarkIdx recs topN).contains p.1
              then { p.2 with isEarlyInfluential := true } else p.2)) p) = true
          ↔ (((fun x => (earlyMarkIdx recs topN).contains x) ∘ Prod.fst) p) = true := by
        intro p hp
        have hsnd := enum_snd_mem recs p hp
        simp only [Function.comp]
        split
        · next hc => exact iff_of_true rfl hc
        · next hc =>
          refine iff_of_false ?_ hc
          rw [hflags p.2 hsnd]
          exact fun hcon => Bool.noConfusion hcon
      rw [List.countP_congr hpt, ← List.countP_map, List.enum_map_fst]
      apply countP_contains_of_nodup _ _ (earlyMarkIdx_nodup recs topN) (List.nodup_range _)
      intro i hi
      obtain ⟨p, hpE, hpeq, _⟩ := earlyMarkIdx_mem recs topN i hi
      have hpenum : p ∈ recs.enum := (earlyPapers_sublist recs topN).subset hpE
      rw [List.mem_range, ← hpeq]
      exact (List.mem_enum hpenum).1

/-- Every flagged entry of the marked list is a window entry with numeric
year before 2016 and at least 200 citations (so one with 199 citations is
never flagged). -/
theorem markEarly_qualifies (recs : List Recommendation) (topN : Nat)
    (hflags : ∀ r ∈ recs, r.isEarlyInfluential = false) :
    ∀ r ∈ markEarlyInfluential recs topN, r.isEarlyInfluential = true →
      ∃ y : Int, r.year = some y ∧ y < 2016 ∧ 200 ≤ r.citationCount := by
  intro r hr hflag
  unfold markEarlyInfluential at hr
  split at hr
  · rw [hflags r hr] at hflag
    exact Bool.noConfusion hflag
  · split at hr
    · rw [hflags r hr] at hflag
      exact Bool.noConfusion hflag
    · rw [List.mem_map] at hr
      obtain ⟨p, hp, rfl⟩ := hr
      dsimp only at hflag ⊢
      have hsnd := enum_snd_mem recs p hp
      by_cases hc : (earlyMarkIdx recs topN).contains p.1 = true
      · obtain ⟨q, hq, hq1, _⟩ := earlyMarkIdx_mem recs topN p.1 (mem_of_contains hc)
        have hqenum : q ∈ recs.enum := (earlyPapers_sublist recs topN).subset hq
        have hpq : q = p := enum_fst_inj recs q hqenum p hp hq1
        have hqual : earlyQualifies p.2 = true := by
          have hqf := (List.mem_filter.mp
            (show q ∈ List.filter (fun x => earlyQualifies x.2) (earlyWindow recs topN)
              from hq)).2
          rw [hpq] at hqf
          exact hqf
        unfold earlyQualifies at hqual
        cases hy : p.2.year with
        | none =>
          rw [hy] at hqual
          exact Bool.noConfusion hqual
        | some y =>
          rw [hy] at hqual
          rw [Bool.and_eq_true] at hqual
          rw [if_pos hc]
          exact ⟨y, rfl, of_decide_eq_true hqual.1, of_decide_eq_true hqual.2⟩
      · rw [if_neg hc] at hflag
        rw [hflags p.2 hsnd] at hflag
        exact Bool.noConfusion hflag

/-- Every flagged entry is among the (at most two) oldest qualifying
window entries: fewer than two qualifying window entries are strictly
older than it. -/
theorem markEarly_oldest (recs : List Recommendation) (topN : Nat)
    (hflags : ∀ r ∈ recs, r.isEarlyInfluential = false) :
    ∀ r ∈ markEarlyInfluential recs topN, r.isEarlyInfluential = true →
      ((recs.take (min (topN * 2) recs.length)).filter
        (fun q => earlyQualifies q && decide (yearKey q < yearKey r))).length < 2 := by
  intro r hr hflag
  unfold markEarlyInfluential at hr
  split at hr
  · rw [hflags r hr] at hflag
    exact Bool.noConfusion hflag
  · split at hr
    · rw [hflags r hr] at hflag
      exact Bool.noConfusion hflag
    · rw [List.mem_map] at hr
      obtain ⟨p, hp, rfl⟩ := hr
      dsimp only at hflag ⊢
      have hsnd := enum_snd_mem recs p hp
      by_cases hc : (earlyMarkIdx recs topN).contains p.1 = true
      · have hyk : yearKey (if (earlyMarkIdx recs topN).contains p.1
            then { p.2 with isEarlyInfluential := true } else p.2) = yearKey p.2 := by
          split <;> rfl
        simp only [hyk]
        obtain ⟨q, hq, hq1, hqtake⟩ := earlyMarkIdx_mem recs topN p.1 (mem_of_contains hc)
        have hqenum : q ∈ recs.enum := (earlyPapers_sublist recs topN).subset hq
        have hpq : q = p := enum_fst_inj recs q hqenum p hp hq1
        rw [← hpq] at hsnd hp ⊢
        rw [← List.countP_eq_length_filter]
        have hwin : recs.take (min (topN * 2) recs.length)
            = (earlyWindow recs topN).map Prod.snd := by
          unfold earlyWindow
          rw [List.map_take, List.enum_map_snd]
        have hstep1 : List.countP
            (fun x => earlyQualifies x && decide (yearKey x < yearKey q.2))
            (recs.take (min (topN * 2) recs.length))
            = List.countP (fun x => decide (yearKey x.2 < yearKey q.2))
                (earlyPapers recs topN) := by
          rw [hwin, List.countP_map,
            show earlyPapers recs topN
              = List.filter (fun x => earlyQualifies x.2) (earlyWindow recs topN) from rfl,
            List.countP_filter]
          apply List.countP_congr
          intro a _
          simp [Function.comp, Bool.and_comm]
        rw [hstep1, ← ((earlySorted_perm recs topN).countP_eq
          (fun x => decide (yearKey x.2 < yearKey q.2)))]
        have hsorted : List.Sorted
            (fun a b : Nat × Recommendation => yearKey a.2 ≤ yearKey b.2)
            (earlySorted recs topN) := by
          unfold earlySorted
          haveI : IsTotal (Nat × Recommendation)
              (fun a b => yearKey a.2 ≤ yearKey b.2) := ⟨fun a b => le_total _ _⟩
          haveI : IsTrans (Nat × Recommendation)
              (fun a b => yearKey a.2 ≤ yearKey b.2) :=
            ⟨fun a b c hab hbc => le_trans hab hbc⟩
          exact List.sorted_insertionSort _ _
        rw [← List.take_append_drop (min 2 (earlyPapers recs topN).length)
          (earlySorted recs topN), List.countP_append]
        have h1 := countP_lt_length_of_mem_false
          (fun x => decide (yearKey x.2 < yearKey q.2)) _ q hqtake (by simp)
        have hlen : ((earlySorted recs topN).take
            (min 2 (earlyPapers recs topN).length)).length ≤ 2 := by
          rw [List.length_take]
          exact le_trans (min_le_left _ _) (min_le_left _ _)
        have h0 : List.countP (fun x => decide (yearKey x.2 < yearKey q.2))
            ((earlySorted recs topN).drop (min 2 (earlyPapers recs topN).length)) = 0 := by
          rw [List.countP_eq_zero]
          intro b hb
          have hsorted2 : List.Pairwise
              (fun a b : Nat × Recommendation => yearKey a.2 ≤ yearKey b.2)
              (((earlySorted recs topN).take (min 2 (earlyPapers recs topN).length))
                ++ ((earlySorted recs topN).drop (min 2 (earlyPapers recs topN).length))) := by
            rw [List.take_append_drop]
            exact hsorted
          rw [List.pairwise_append] at hsorted2
          have hrel : yearKey q.2 ≤ yearKey b.2 := hsorted2.2.2 q hqtake b hb
          simp only [decide_eq_true_eq]
          exact not_lt.mpr hrel
        rw [h0]
        omega
      · rw [if_neg hc] at hflag
        rw [hflags p.2 hsnd] at hflag
        exact Bool.noConfusion hflag

/-! ## Claim C7 -/

/-- C7: the marker considers only the first `min(2 * topN, length)`
entries of the already score-sorted list; within that window it selects
the entries with numeric year `< 2016` and `citationCount >= 200` (an
entry with 199 citations is never marked); it sets `isEarlyInfluential`
on exactly `min 2 count` of them, each among the oldest (fewer than two
qualifying window entries are strictly older than any marked one); and
`findGaps` truncates the ranked list to `topN` only after this marking. -/
theorem markEarlyInfluential_spec :
    (∀ (recs : List Recommendation) (topN : Nat),
      (∀ r ∈ recs, r.isEarlyInfluential = false) →
      ((markEarlyInfluential recs topN).filter (fun r => r.isEarlyInfluential)).length
          = min 2 (((recs.take (min (topN * 2) recs.length)).filter earlyQualifies).length)
      ∧ (∀ r ∈ markEarlyInfluential recs topN, r.isEarlyInfluential = true →
          ∃ y : Int, r.year = some y ∧ y < 2016 ∧ 200 ≤ r.citationCount)
      ∧ (∀ r ∈ markEarlyInfluential recs topN, r.isEarlyInfluential = true →
          ((recs.take (min (topN * 2) recs.length)).filter
            (fun q => earlyQualifies q && decide (yearKey q < yearKey r))).length < 2))
    ∧ (∀ (allCitations : List Candidate) (userPaperIds : List String) (opts : GapOptions)
        (currentYear : Int),
        findGaps allCitations userPaperIds opts currentYear
          = (markEarlyInfluential (gapRanked allCitations userPaperIds opts currentYear)
              opts.topN).take opts.topN) := by
  constructor
  · intro recs topN hflags
    exact ⟨markEarly_count recs topN hflags, markEarly_qualifies recs topN hflags,
      markEarly_oldest recs topN hflags⟩
  · intro cits uids opts year
    unfold findGaps
    split
    · next h =>
      have hrank : gapRanked cits uids opts year = [] := by
        unfold gapRanked
        rw [List.length_eq_zero.mp h]
        rfl
      rw [hrank]
      simp [markEarlyInfluential]
    · rfl

/-- Witness for C7: in the three-element example (one qualifying entry of
year 2010 with 500 citations, one recent entry, one old entry with only
199 citations), with `topN = 2`, exactly one entry is flagged; the
truncation equation holds at the empty instance. -/
theorem markEarlyInfluential_spec_witness :
    ((markEarlyInfluential exampleRecs 2).filter (fun r => r.isEarlyInfluential)).length = 1
    ∧ findGaps [] [] ⟨2010, 10, 2⟩ 2026
        = (markEarlyInfluential (gapRanked [] [] ⟨2010, 10, 2⟩ 2026) 10).take 10 := by
  constructor
  · have h := (markEarlyInfluential_spec.1 exampleRecs 2 (by decide)).1
    rw [h]
    decide
  · exact markEarlyInfluential_spec.2 [] [] ⟨2010, 10, 2⟩ 2026

end LitGap
